import Mathlib

/-!
Shallow embedding of the `dispatch` request-dispatch core (package `dispatch`,
files `api.go`, `context.go`, `errors.go`, `proxy.go`; the `context.Context`
based revision).  Go values observable through `interface{}` are modelled by
the inductive `IVal`; Go `error` values by `GoError`; `context.Context` by an
association list of key/value bindings (newest first, as `context.WithValue`
chains a child in front of its parent); panics and the `recover` boundary by
the `Outcome` monad-like wrapper.  The path matcher lives in a source file
that is not part of the excerpt (`endpoint.go`), so an endpoint's matcher is
embedded abstractly as a record of its `Method` token, its
`Match : method → path → (PathVars, bool)` and its `MatchPath : path → bool`
functions, exactly the interface `api.go` consumes.
-/

namespace Dispatch

/-- Modelled from the spec: `PathVars` is declared in `endpoint.go`, which is
not in the excerpt; the spec describes it as a mapping from variable name to
matched string value.  Embedded as an association list. -/
abbrev PathVars := List (String × String)

/-- Raw request body bytes (`json.RawMessage`). -/
abbrev RawMessage := String

/-- The decoded custom input value a handler receives (opaque payload). -/
abbrev CustomVal := String

/-- Go `error` values that circulate in the package: the three sentinel
errors of `errors.go`, the caller-constructed `APIError`, and arbitrary
other errors (hook errors, `json.Unmarshal` errors, ...). -/
inductive GoError where
  | errNotFound
  | errBadRequest
  | errInternal
  | apiError (statusCode : Nat) (text : String)
  | custom (msg : String)
deriving DecidableEq, Repr

/-- The keys of `context.go`: `contextPathVars`, `contextLambdaRequest`,
`contextLambdaResponse` (distinct empty struct types, hence collision-free). -/
inductive CtxKey where
  | pathVarsKey
  | lambdaRequestKey
  | lambdaResponseKey
deriving DecidableEq, Repr

/-- Values stored in a context: a `PathVars` binding or an opaque
transport payload (lambda request/response, identified by a number). -/
inductive CtxVal where
  | pathVarsVal (pv : PathVars)
  | lambdaRequestVal (r : Nat)
  | lambdaResponseVal (r : Nat)
deriving DecidableEq, Repr

/-- Go `context.Context`: a `context.WithValue` derivation chain, newest
binding first.  `context.Background()` is the empty list. -/
abbrev Ctx := List (CtxKey × CtxVal)

/-- Lookup as `ctx.Value(key)` resolves it: the most recently derived
binding for the key wins; absent at the root. -/
def ctxValue : Ctx → CtxKey → Option CtxVal
  | [], _ => none
  | (k, v) :: rest, key => if k = key then some v else ctxValue rest key

/-- `SetContextPathVars` (context.go): derive a child context carrying the
path variables. -/
def SetContextPathVars (ctx : Ctx) (pathVars : PathVars) : Ctx :=
  (CtxKey.pathVarsKey, CtxVal.pathVarsVal pathVars) :: ctx

/-- `ContextPathVars` (context.go): the stored `PathVars` if the binding
exists and has that type, else the empty `PathVars{}`. -/
def ContextPathVars (ctx : Ctx) : PathVars :=
  match ctxValue ctx CtxKey.pathVarsKey with
  | some (CtxVal.pathVarsVal pv) => pv
  | _ => []

/-- `SetContextLambdaRequest` (context.go). -/
def SetContextLambdaRequest (ctx : Ctx) (req : Nat) : Ctx :=
  (CtxKey.lambdaRequestKey, CtxVal.lambdaRequestVal req) :: ctx

/-- Result of a Go computation that may panic. -/
inductive Outcome (α : Type) where
  | ok (a : α)
  | panicked (msg : String)
deriving DecidableEq, Repr

/-- A Go `interface{}` value as the dispatcher observes it: nil, a value
satisfying the `error` interface, or any other (data) value. -/
inductive IVal where
  | vnil
  | verr (e : GoError)
  | vdata (d : String)
deriving DecidableEq, Repr

/-- `EndpointInput` (fields as used by `api.go`: `Method`, `Path`, `Ctx`,
`Input`), the descriptor passed through the middleware chain. -/
structure EndpointInput where
  Method : String
  Path : String
  Ctx : Ctx
  Input : RawMessage
deriving DecidableEq, Repr

/-- A pre-request hook: Go signature
`func(*EndpointInput) (*EndpointInput, error)`, with the possibility of
panicking. -/
abbrev Hook := EndpointInput → Outcome (Option EndpointInput × Option GoError)

/-- Kind of a declared handler parameter as `api.go` classifies it: either
it implements `context.Context`, or it is a custom input type. -/
inductive ParamKind where
  | ctxParam
  | customParam
deriving DecidableEq, Repr

/-- The reflection-observable content of a handler that is a `Func`:
its declared parameter kinds, the `json.Unmarshal` behaviour of its custom
input type (failure returns the decode error; pathological inputs may
panic), and its body, which receives the context and/or decoded custom
value it declared and may panic. -/
structure HandlerFunc where
  params : List ParamKind
  decode : RawMessage → Outcome (Except GoError CustomVal)
  run : Option Ctx → Option CustomVal → Outcome (List IVal)

/-- `Endpoint.Handler` is an `interface{}`: either not a callable at all,
or a function. -/
inductive Handler where
  | notFunc (desc : String)
  | func (f : HandlerFunc)

/-- The matcher interface `api.go` consumes (`endpoint.go` is not in the
excerpt): a `Method` token, `Match(method, path) (PathVars, bool)` and
`MatchPath(path) bool`. -/
structure PathMatcher where
  Method : String
  Match : String → String → PathVars × Bool
  MatchPath : String → Bool

/-- An `Endpoint`: its matcher, ordered middleware hooks, handler, and the
`Path` string used in log messages. -/
structure Endpoint where
  pathMatcher : PathMatcher
  PreRequestHooks : List Hook
  Handler : Handler
  Path : String

/-- The `API` registry: the ordered `Endpoints` slice. -/
structure API where
  Endpoints : List Endpoint

/-- The scan loop of `API.MatchEndpoint`: first endpoint whose matcher
reports a match, with its bound path variables; `(nil, nil)` — here
`none` — when none matches. -/
def matchEndpointLoop : List Endpoint → String → String → Option (Endpoint × PathVars)
  | [], _, _ => none
  | endpt :: rest, method, path =>
    let r := endpt.pathMatcher.Match method path
    if r.2 then some (endpt, r.1) else matchEndpointLoop rest method path

/-- `API.MatchEndpoint` (api.go). -/
def API.MatchEndpoint (api : API) (method path : String) : Option (Endpoint × PathVars) :=
  matchEndpointLoop api.Endpoints method path

/-- The accumulation loop of `API.GetMethodsForPath`: append the method
token of every endpoint whose `MatchPath` reports a match. -/
def getMethodsLoop : List Endpoint → String → List String → List String
  | [], _, methods => methods
  | endpt :: rest, path, methods =>
    if endpt.pathMatcher.MatchPath path
    then getMethodsLoop rest path (methods ++ [endpt.pathMatcher.Method])
    else getMethodsLoop rest path methods

/-- `API.GetMethodsForPath` (api.go). -/
def API.GetMethodsForPath (api : API) (path : String) : List String :=
  getMethodsLoop api.Endpoints path []

/-- The middleware loop of `API.Call`: each hook receives the current
`EndpointInput`; a hook error aborts with that error; a nil replacement
with a nil error makes the subsequent field reads dereference nil (a
panic); otherwise the replacement's fields become the current method,
path, context and input. -/
def runHooks : List Hook → EndpointInput → Outcome (Except GoError EndpointInput)
  | [], ei => Outcome.ok (Except.ok ei)
  | hook :: rest, ei =>
    match hook ei with
    | Outcome.panicked m => Outcome.panicked m
    | Outcome.ok (modifiedInput, e) =>
      match e with
      | some headErr => Outcome.ok (Except.error headErr)
      | none =>
        match modifiedInput with
        | none => Outcome.panicked "runtime error: invalid memory address or nil pointer dereference"
        | some mi => runHooks rest mi

/-- The parameter classification loop of `API.Call`: walks the declared
parameters with the `takesContext` and `takesCustom` flags; a second
parameter of an already-seen kind is the `multiple ... inputs`
configuration fault (`none`). -/
def scanParams : List ParamKind → Bool → Bool → Option (Bool × Bool)
  | [], takesContext, takesCustom => some (takesContext, takesCustom)
  | ParamKind.ctxParam :: rest, takesContext, takesCustom =>
    if takesContext then none else scanParams rest true takesCustom
  | ParamKind.customParam :: rest, takesContext, takesCustom =>
    if takesCustom then none else scanParams rest takesContext true

/-- Argument construction and handler invocation of `API.Call`: when a
custom parameter exists the raw body is decoded into it, a decode error
returning early as the call's error; then the handler is called with the
declared arguments, yielding its result values. -/
def buildAndRun (f : HandlerFunc) (takesContext takesCustom : Bool) (ctx : Ctx)
    (input : RawMessage) : Outcome (Except GoError (List IVal)) :=
  let ctxArg := if takesContext then some ctx else none
  if takesCustom then
    match f.decode input with
    | Outcome.panicked m => Outcome.panicked m
    | Outcome.ok (Except.error e) => Outcome.ok (Except.error e)
    | Outcome.ok (Except.ok cv) =>
      match f.run ctxArg (some cv) with
      | Outcome.panicked m => Outcome.panicked m
      | Outcome.ok rs => Outcome.ok (Except.ok rs)
  else
    match f.run ctxArg none with
    | Outcome.panicked m => Outcome.panicked m
    | Outcome.ok rs => Outcome.ok (Except.ok rs)

/-- The result-normalization switch of `API.Call` over
`len(resultValues)`: 0 values ⇒ (nil, nil); 1 value ⇒ nil / error / data
as inspected; 2 values ⇒ (out, error), where a non-nil second value that
is not an error makes the unchecked assertion `errVal.(error)` panic;
more ⇒ internal error. -/
def normalizeResults : List IVal → Outcome (IVal × Option GoError)
  | [] => Outcome.ok (IVal.vnil, none)
  | [retval] =>
    match retval with
    | IVal.vnil => Outcome.ok (IVal.vnil, none)
    | IVal.verr e => Outcome.ok (IVal.vnil, some e)
    | IVal.vdata d => Outcome.ok (IVal.vdata d, none)
  | [outv, errVal] =>
    match errVal with
    | IVal.vnil => Outcome.ok (outv, none)
    | IVal.verr e => Outcome.ok (outv, some e)
    | IVal.vdata _ => Outcome.panicked "interface conversion: interface is not error"
  | _ :: _ :: _ :: _ => Outcome.ok (IVal.vnil, some GoError.errInternal)

/-- Handler introspection and invocation of `API.Call` after the
middleware chain: non-function handler ⇒ internal; more than two
parameters ⇒ internal; a duplicated parameter kind ⇒ internal; else the
arguments are built, the handler runs and its results are normalized. -/
def invokeHandler (endpoint : Endpoint) (ctx : Ctx) (input : RawMessage) :
    Outcome (IVal × Option GoError) :=
  match endpoint.Handler with
  | Handler.notFunc _ => Outcome.ok (IVal.vnil, some GoError.errInternal)
  | Handler.func f =>
    if f.params.length > 2 then Outcome.ok (IVal.vnil, some GoError.errInternal)
    else
      match scanParams f.params false false with
      | none => Outcome.ok (IVal.vnil, some GoError.errInternal)
      | some (takesContext, takesCustom) =>
        match buildAndRun f takesContext takesCustom ctx input with
        | Outcome.panicked m => Outcome.panicked m
        | Outcome.ok (Except.error e) => Outcome.ok (IVal.vnil, some e)
        | Outcome.ok (Except.ok rs) => normalizeResults rs

/-- The body of `API.Call` inside the recovery boundary: match the
endpoint (NotFound when none), bind the path variables into the context,
run the middleware chain, then introspect and invoke the handler. -/
def callBody (api : API) (ctx : Ctx) (method path : String) (input : RawMessage) :
    Outcome (IVal × Option GoError) :=
  match api.MatchEndpoint method path with
  | none => Outcome.ok (IVal.vnil, some GoError.errNotFound)
  | some (endpoint, pathVars) =>
    match runHooks endpoint.PreRequestHooks
        ⟨method, path, SetContextPathVars ctx pathVars, input⟩ with
    | Outcome.panicked m => Outcome.panicked m
    | Outcome.ok (Except.error e) => Outcome.ok (IVal.vnil, some e)
    | Outcome.ok (Except.ok ei) => invokeHandler endpoint ei.Ctx ei.Input

/-- The deferred `recover` of `API.Call`: a panic anywhere in the body is
converted into `(nil, ErrInternal)`. -/
def recoverInternal : Outcome (IVal × Option GoError) → IVal × Option GoError
  | Outcome.ok r => r
  | Outcome.panicked _ => (IVal.vnil, some GoError.errInternal)

/-- `API.Call` (api.go): the body under the recovery boundary. -/
def API.Call (api : API) (ctx : Ctx) (method path : String) (input : RawMessage) :
    IVal × Option GoError :=
  recoverInternal (callBody api ctx method path input)

/-- The error→status switch of `HTTPProxy` (proxy.go): the `ErrNotFound`
sentinel maps to 404, the `ErrBadRequest` sentinel to 400, and every
other error falls to the default branch, 500. -/
def httpStatusForError : GoError → Nat
  | GoError.errNotFound => 404
  | GoError.errBadRequest => 400
  | _ => 500

/-- The HTTP status `HTTPProxy` (proxy.go) writes for a non-OPTIONS
request whose body was read successfully: the call runs on
`context.Background()`; an error is mapped through the status switch;
otherwise 200 (JSON marshalling of the output value assumed to
succeed). -/
def httpProxyStatus (api : API) (method path : String) (body : RawMessage) : Nat :=
  if method = "OPTIONS" then 200
  else
    match api.Call [] method path body with
    | (_, some e) => httpStatusForError e
    | (_, none) => 200

/-- A matcher for a literal route: exact method and exact path, binding no
path variables (the shape a pattern with no variable segments produces). -/
def constMatcher (method path : String) : PathMatcher :=
  { Method := method
    Match := fun m p => ([], m == method && p == path)
    MatchPath := fun p => p == path }

/-- A matcher for a one-variable route `method/seg/{name}` restricted to the
concrete paths used in the examples: it matches any path and binds `name` to
the whole path. -/
def varMatcher (method name : String) : PathMatcher :=
  { Method := method
    Match := fun m p => ([(name, p)], m == method)
    MatchPath := fun _ => true }

/-- A trivially decodable body (`json.Unmarshal` succeeds and yields the raw
body as the custom value). -/
def okDecode : RawMessage → Outcome (Except GoError CustomVal) :=
  fun input => Outcome.ok (Except.ok input)

/-- The body from the test suite on which `json.Unmarshal` fails
(truncated JSON object). -/
def badBody : RawMessage := "\x7b\"Var1\":"

/-- The error `json.Unmarshal` reports on the truncated body. -/
def unmarshalErr : GoError := GoError.custom "unexpected end of JSON input"

/-- A decode behaviour that fails on the truncated body and succeeds on
everything else. -/
def fallibleDecode : RawMessage → Outcome (Except GoError CustomVal) :=
  fun input =>
    if input = badBody then Outcome.ok (Except.error unmarshalErr)
    else Outcome.ok (Except.ok input)

/-- A no-parameter handler returning the single data value `d`. -/
def dataHandler (d : String) : Handler :=
  Handler.func
    { params := []
      decode := okDecode
      run := fun _ _ => Outcome.ok [IVal.vdata d] }

/-- A no-parameter handler whose body panics (a nil dereference). -/
def panicHandler : Handler :=
  Handler.func
    { params := []
      decode := okDecode
      run := fun _ _ => Outcome.panicked "runtime error: invalid memory address or nil pointer dereference" }

/-- A handler declaring two custom (non-context) parameters and returning
`("OK", nil)` — the invalid shape of `testBadHandler` in the test suite. -/
def badHandler : Handler :=
  Handler.func
    { params := [ParamKind.customParam, ParamKind.customParam]
      decode := okDecode
      run := fun _ _ => Outcome.ok [IVal.vdata "OK", IVal.vnil] }

/-- A one-custom-parameter handler echoing the decoded value as data. -/
def echoHandler : Handler :=
  Handler.func
    { params := [ParamKind.customParam]
      decode := fallibleDecode
      run := fun _ cv => Outcome.ok [IVal.vdata (cv.getD ""), IVal.vnil] }

/-- A hook that aborts the call with the error `"ERROR"` (as
`middlewareHook` in the test suite does on a failed check). -/
def abortHook : Hook := fun _ => Outcome.ok (none, some (GoError.custom "ERROR"))

/-- A hook that rewrites the method and path of the input to `GET /b`,
leaving context and body untouched. -/
def rewriteHook : Hook := fun ei => Outcome.ok (some ⟨"GET", "/b", ei.Ctx, ei.Input⟩, none)

/-- Endpoint registered as `GET/panic` with a panicking handler. -/
def c1Endpoint : Endpoint :=
  { pathMatcher := constMatcher "GET" "/panic"
    PreRequestHooks := []
    Handler := panicHandler
    Path := "GET/panic" }

/-- Registry holding only the panicking endpoint. -/
def c1Api : API := { Endpoints := [c1Endpoint] }

/-- Endpoint registered as `GET/test` with a plain data handler. -/
def c2Endpoint : Endpoint :=
  { pathMatcher := constMatcher "GET" "/test"
    PreRequestHooks := []
    Handler := dataHandler "hello"
    Path := "GET/test" }

/-- Registry holding only the `GET/test` endpoint. -/
def c2Api : API := { Endpoints := [c2Endpoint] }

/-- Endpoint registered as `GET/test` whose handler takes one custom
parameter with a fallible body decode. -/
def c3Endpoint : Endpoint :=
  { pathMatcher := constMatcher "GET" "/test"
    PreRequestHooks := []
    Handler := echoHandler
    Path := "GET/test" }

/-- Registry holding only the custom-input endpoint. -/
def c3Api : API := { Endpoints := [c3Endpoint] }

/-- First of two overlapping endpoints: the literal pattern `GET/dup`. -/
def c4e1 : Endpoint :=
  { pathMatcher := constMatcher "GET" "/dup"
    PreRequestHooks := []
    Handler := dataHandler "first"
    Path := "GET/dup" }

/-- Second of two overlapping endpoints: a variable pattern that also
matches `/dup` (and binds `id` to the path). -/
def c4e2 : Endpoint :=
  { pathMatcher := varMatcher "GET" "id"
    PreRequestHooks := []
    Handler := dataHandler "second"
    Path := "GET/\x7bid\x7d" }

/-- Registry with two overlapping endpoints, the literal one first. -/
def c4Api : API := { Endpoints := [c4e1, c4e2] }

/-- Endpoint registered as `GET/test` with the invalid two-custom-parameter
handler. -/
def c5Endpoint : Endpoint :=
  { pathMatcher := constMatcher "GET" "/test"
    PreRequestHooks := []
    Handler := badHandler
    Path := "GET/test" }

/-- Registry holding only the invalid-shape endpoint. -/
def c5Api : API := { Endpoints := [c5Endpoint] }

/-- Endpoint registered as `GET/test` whose middleware chain aborts. -/
def c6Endpoint : Endpoint :=
  { pathMatcher := constMatcher "GET" "/test"
    PreRequestHooks := [abortHook]
    Handler := dataHandler "never"
    Path := "GET/test" }

/-- Registry holding only the aborting-middleware endpoint. -/
def c6Api : API := { Endpoints := [c6Endpoint] }

/-- Registry registering `GET/test` twice (legal: no uniqueness check). -/
def c8DupApi : API :=
  { Endpoints :=
      [ { pathMatcher := constMatcher "GET" "/test"
          PreRequestHooks := []
          Handler := dataHandler "a"
          Path := "GET/test" }
      , { pathMatcher := constMatcher "GET" "/test"
          PreRequestHooks := []
          Handler := dataHandler "b"
          Path := "GET/test" } ] }

/-- Registry registering `GET/test` then `PUT/test` (the spec's example). -/
def c8Api : API :=
  { Endpoints :=
      [ { pathMatcher := constMatcher "GET" "/test"
          PreRequestHooks := []
          Handler := dataHandler "a"
          Path := "GET/test" }
      , { pathMatcher := constMatcher "PUT" "/test"
          PreRequestHooks := []
          Handler := dataHandler "b"
          Path := "PUT/test" } ] }

/-- Endpoint `GET/a` whose hook rewrites the request to `GET /b`. -/
def c10e1 : Endpoint :=
  { pathMatcher := constMatcher "GET" "/a"
    PreRequestHooks := [rewriteHook]
    Handler := dataHandler "first"
    Path := "GET/a" }

/-- Endpoint `GET/b`, never selected because matching happens before the
hook rewrites the path. -/
def c10e2 : Endpoint :=
  { pathMatcher := constMatcher "GET" "/b"
    PreRequestHooks := []
    Handler := dataHandler "second"
    Path := "GET/b" }

/-- Registry with the rewriting endpoint first and its rewrite target
second. -/
def c10Api : API := { Endpoints := [c10e1, c10e2] }

/-- Result normalization as the spec states it, written from the spec's
words for comparison with the code (§4.3: 0 values ⇒ (no data, no
error); 1 value ⇒ nil / error-capable / data; 2 values ⇒ (data, error)
in that order, nil second value yielding nil error; more than 2 values ⇒
Internal). -/
def specNormalize : List IVal → IVal × Option GoError
  | [] => (IVal.vnil, none)
  | [IVal.vnil] => (IVal.vnil, none)
  | [IVal.verr e] => (IVal.vnil, some e)
  | [IVal.vdata d] => (IVal.vdata d, none)
  | [outv, IVal.vnil] => (outv, none)
  | [outv, IVal.verr e] => (outv, some e)
  | _ => (IVal.vnil, some GoError.errInternal)

/-! ### Helper lemmas -/

theorem matchEndpointLoop_none (m p : String) :
    ∀ l : List Endpoint, (∀ e ∈ l, (e.pathMatcher.Match m p).2 = false) →
      matchEndpointLoop l m p = none := by
  intro l
  induction l with
  | nil => intro _; rfl
  | cons endpt rest ih =>
    intro h
    have hhead := h endpt (List.mem_cons_self _ _)
    simp only [matchEndpointLoop, hhead, Bool.false_eq_true, if_false]
    exact ih fun e he => h e (List.mem_cons_of_mem _ he)

theorem matchEndpointLoop_first (m p : String) :
    ∀ (l : List Endpoint) (e : Endpoint) (pv : PathVars),
      matchEndpointLoop l m p = some (e, pv) →
      ∃ i, ∃ hi : i < l.length,
        l.get ⟨i, hi⟩ = e ∧ e.pathMatcher.Match m p = (pv, true) ∧
        ∀ j, ∀ hj : j < l.length, j < i →
          ((l.get ⟨j, hj⟩).pathMatcher.Match m p).2 = false := by
  intro l
  induction l with
  | nil => intro e pv h; simp [matchEndpointLoop] at h
  | cons endpt rest ih =>
    intro e pv h
    rcases hq : endpt.pathMatcher.Match m p with ⟨pv0, b0⟩
    simp only [matchEndpointLoop, hq] at h
    cases b0 with
    | true =>
      simp only [if_true, Option.some.injEq, Prod.mk.injEq] at h
      obtain ⟨he, hpv⟩ := h
      refine ⟨0, Nat.succ_pos _, ?_, ?_, ?_⟩
      · simpa using he
      · rw [← he, hq, hpv]
      · intro j hj hj0; omega
    | false =>
      simp only [Bool.false_eq_true, if_false] at h
      obtain ⟨i, hi, hget, hmatch, hbefore⟩ := ih e pv h
      refine ⟨i + 1, Nat.succ_lt_succ hi, ?_, hmatch, ?_⟩
      · simpa using hget
      · intro j hj hji
        cases j with
        | zero => simp [List.get, hq]
        | succ j2 =>
          have hj2 : j2 < rest.length := by
            have := Nat.lt_of_succ_lt_succ hj
            simpa using this
          have := hbefore j2 hj2 (Nat.lt_of_succ_lt_succ hji)
          simpa using this

theorem runHooks_append :
    ∀ (hs1 hs2 : List Hook) (ei ei' : EndpointInput),
      runHooks hs1 ei = Outcome.ok (Except.ok ei') →
      runHooks (hs1 ++ hs2) ei = runHooks hs2 ei' := by
  intro hs1
  induction hs1 with
  | nil =>
    intro hs2 ei ei' h
    simp only [runHooks, Outcome.ok.injEq, Except.ok.injEq] at h
    rw [List.nil_append, h]
  | cons hook rest ih =>
    intro hs2 ei ei' h
    cases hh : hook ei with
    | panicked m => simp [runHooks, hh] at h
    | ok pr =>
      obtain ⟨mi, e⟩ := pr
      cases e with
      | some e0 => simp [runHooks, hh] at h
      | none =>
        cases mi with
        | none => simp [runHooks, hh] at h
        | some mi2 =>
          simp only [runHooks, hh] at h
          rw [List.cons_append]
          simp only [runHooks, hh]
          exact ih hs2 mi2 ei' h

theorem call_after_hooks (api : API) (ctx : Ctx) (m p : String) (input : RawMessage)
    (e : Endpoint) (pv : PathVars) (ei : EndpointInput)
    (hMatch : api.MatchEndpoint m p = some (e, pv))
    (hHooks : runHooks e.PreRequestHooks ⟨m, p, SetContextPathVars ctx pv, input⟩ =
      Outcome.ok (Except.ok ei)) :
    api.Call ctx m p input = recoverInternal (invokeHandler e ei.Ctx ei.Input) := by
  simp only [API.Call, callBody, hMatch, hHooks]

theorem scanParams_ctx_dup :
    ∀ (ps : List ParamKind) (tcu : Bool), ParamKind.ctxParam ∈ ps →
      scanParams ps true tcu = none := by
  intro ps
  induction ps with
  | nil => intro tcu h; cases h
  | cons k rest ih =>
    intro tcu h
    cases k with
    | ctxParam => simp [scanParams]
    | customParam =>
      have hm : ParamKind.ctxParam ∈ rest := by
        cases h with
        | tail _ h2 => exact h2
      cases tcu with
      | true => simp [scanParams]
      | false => simpa [scanParams] using ih true hm

theorem scanParams_custom_dup :
    ∀ (ps : List ParamKind) (tc : Bool), ParamKind.customParam ∈ ps →
      scanParams ps tc true = none := by
  intro ps
  induction ps with
  | nil => intro tc h; cases h
  | cons k rest ih =>
    intro tc h
    cases k with
    | customParam => simp [scanParams]
    | ctxParam =>
      have hm : ParamKind.customParam ∈ rest := by
        cases h with
        | tail _ h2 => exact h2
      cases tc with
      | true => simp [scanParams]
      | false => simpa [scanParams] using ih true hm

theorem scanParams_two_ctx :
    ∀ (ps : List ParamKind) (tcu : Bool), 2 ≤ ps.count ParamKind.ctxParam →
      scanParams ps false tcu = none := by
  intro ps
  induction ps with
  | nil => intro tcu h; simp at h
  | cons k rest ih =>
    intro tcu h
    cases k with
    | ctxParam =>
      have hm : ParamKind.ctxParam ∈ rest := by
        rw [← List.count_pos_iff]
        have : rest.count ParamKind.ctxParam + 1 = (ParamKind.ctxParam :: rest).count ParamKind.ctxParam := by
          simp [List.count_cons]
        omega
      simpa [scanParams] using scanParams_ctx_dup rest tcu hm
    | customParam =>
      have h2 : 2 ≤ rest.count ParamKind.ctxParam := by
        have : (ParamKind.customParam :: rest).count ParamKind.ctxParam =
            rest.count ParamKind.ctxParam := by
          simp [List.count_cons]
        omega
      cases tcu with
      | true => simp [scanParams]
      | false => simpa [scanParams] using ih true h2

theorem scanParams_two_custom :
    ∀ (ps : List ParamKind) (tc : Bool), 2 ≤ ps.count ParamKind.customParam →
      scanParams ps tc false = none := by
  intro ps
  induction ps with
  | nil => intro tc h; simp at h
  | cons k rest ih =>
    intro tc h
    cases k with
    | customParam =>
      have hm : ParamKind.customParam ∈ rest := by
        rw [← List.count_pos_iff]
        have : rest.count ParamKind.customParam + 1 = (ParamKind.customParam :: rest).count ParamKind.customParam := by
          simp [List.count_cons]
        omega
      simpa [scanParams] using scanParams_custom_dup rest tc hm
    | ctxParam =>
      have h2 : 2 ≤ rest.count ParamKind.customParam := by
        have : (ParamKind.ctxParam :: rest).count ParamKind.customParam =
            rest.count ParamKind.customParam := by
          simp [List.count_cons]
        omega
      cases tc with
      | true => simp [scanParams]
      | false => simpa [scanParams] using ih true h2

theorem recoverNormalize (rs : List IVal)
    (hwf : ∀ a d, rs ≠ [a, IVal.vdata d]) :
    recoverInternal (normalizeResults rs) = specNormalize rs := by
  cases rs with
  | nil => rfl
  | cons a t =>
    cases t with
    | nil => cases a <;> rfl
    | cons b t2 =>
      cases t2 with
      | nil =>
        cases b with
        | vnil => cases a <;> rfl
        | verr e => cases a <;> rfl
        | vdata d => exact absurd rfl (hwf a d)
      | cons c t3 => cases a <;> cases b <;> cases c <;> rfl

theorem getMethodsLoop_spec (path : String) :
    ∀ (l : List Endpoint) (acc : List String),
      getMethodsLoop l path acc =
        acc ++ (l.filter (fun e => e.pathMatcher.MatchPath path)).map
          (fun e => e.pathMatcher.Method) := by
  intro l
  induction l with
  | nil => intro acc; simp [getMethodsLoop]
  | cons endpt rest ih =>
    intro acc
    by_cases hm : endpt.pathMatcher.MatchPath path = true
    · simp [getMethodsLoop, hm, ih, List.filter_cons]
    · simp [getMethodsLoop, hm, ih, List.filter_cons]

theorem ctxValue_none_of_no_key :
    ∀ (ctx : Ctx), (∀ kv ∈ ctx, kv.1 ≠ CtxKey.pathVarsKey) →
      ctxValue ctx CtxKey.pathVarsKey = none := by
  intro ctx
  induction ctx with
  | nil => intro _; rfl
  | cons kv rest ih =>
    intro h
    have h1 := h kv (List.mem_cons_self _ _)
    obtain ⟨k, v⟩ := kv
    simp only [ctxValue]
    rw [if_neg h1]
    exact ih fun kv2 hkv2 => h kv2 (List.mem_cons_of_mem _ hkv2)

/-! ### Claim theorems -/

/-- C1: for every registry, context, method, path and body, `API.Call` never
lets a runtime fault (panic) raised by middleware, body decoding, or the
handler propagate: whenever the call body panics, `Call` returns
`(nil, ErrInternal)`.  (Totality of `API.Call` models non-propagation; the
recovery boundary converts every panic of the body into `ErrInternal`.) -/
theorem Call_recovers_panic (api : API) (ctx : Ctx) (m p : String) (input : RawMessage)
    (msg : String) (h : callBody api ctx m p input = Outcome.panicked msg) :
    api.Call ctx m p input = (IVal.vnil, some GoError.errInternal) := by
  simp [API.Call, h, recoverInternal]

theorem Call_recovers_panic_witness :
    callBody c1Api [] "GET" "/panic" "" =
      Outcome.panicked "runtime error: invalid memory address or nil pointer dereference" ∧
    c1Api.Call [] "GET" "/panic" "" = (IVal.vnil, some GoError.errInternal) :=
  ⟨rfl, Call_recovers_panic c1Api [] "GET" "/panic" "" _ rfl⟩

/-- C2: for every successfully matched and non-aborted call whose handler
invocation produced the result values `rs` (with a well-formed second value
when there are two), `API.Call` returns exactly the normalization the spec
states: 0 values ⇒ (nil, nil); 1 value ⇒ nil / error / data; 2 values ⇒
(data, error) in that order with a nil second value yielding a nil error;
more than 2 values ⇒ (nil, ErrInternal). -/
theorem Call_normalizes_results (api : API) (ctx : Ctx) (m p : String) (input : RawMessage)
    (e : Endpoint) (pv : PathVars) (ei : EndpointInput) (f : HandlerFunc)
    (takesContext takesCustom : Bool) (rs : List IVal)
    (hMatch : api.MatchEndpoint m p = some (e, pv))
    (hHooks : runHooks e.PreRequestHooks ⟨m, p, SetContextPathVars ctx pv, input⟩ =
      Outcome.ok (Except.ok ei))
    (hHandler : e.Handler = Handler.func f)
    (hLen : f.params.length ≤ 2)
    (hScan : scanParams f.params false false = some (takesContext, takesCustom))
    (hRun : buildAndRun f takesContext takesCustom ei.Ctx ei.Input =
      Outcome.ok (Except.ok rs))
    (hwf : ∀ a d, rs ≠ [a, IVal.vdata d]) :
    api.Call ctx m p input = specNormalize rs := by
  rw [call_after_hooks api ctx m p input e pv ei hMatch hHooks]
  simp only [invokeHandler, hHandler]
  rw [if_neg (by omega)]
  simp only [hScan, hRun]
  exact recoverNormalize rs hwf

theorem Call_normalizes_results_witness :
    c2Api.MatchEndpoint "GET" "/test" = some (c2Endpoint, []) ∧
    c2Api.Call [] "GET" "/test" "" = specNormalize [IVal.vdata "hello"] ∧
    specNormalize [IVal.vdata "hello"] = (IVal.vdata "hello", none) :=
  ⟨rfl,
   Call_normalizes_results c2Api [] "GET" "/test" "" c2Endpoint []
     ⟨"GET", "/test", SetContextPathVars [] [], ""⟩
     { params := []
       decode := okDecode
       run := fun _ _ => Outcome.ok [IVal.vdata "hello"] }
     false false [IVal.vdata "hello"]
     rfl rfl rfl (by decide) rfl rfl (by intro a d; simp),
   rfl⟩

/-- C3 counterexample: on the truncated body of the test suite, `API.Call`
does surface the decoding error itself, but the HTTP transport adapter
(`HTTPProxy`) writes status 500, not a 400-equivalent: the decoding error
is not the `ErrBadRequest` sentinel, so it falls to the default branch of
the status switch. -/
theorem decode_error_maps_to_500 :
    c3Api.Call [] "GET" "/test" badBody = (IVal.vnil, some unmarshalErr) ∧
    httpProxyStatus c3Api "GET" "/test" badBody = 500 ∧
    ¬ httpProxyStatus c3Api "GET" "/test" badBody = 400 :=
  ⟨rfl, rfl, by decide⟩

/-- C3 (amended): for every call whose matched handler declares a
custom-kind parameter, if decoding the raw body fails, `API.Call` returns
`(nil, e)` with `e` the decoding error itself — not `ErrInternal`; however
the transport adapter does not map it to a 400-equivalent failure: the
`HTTPProxy` status switch maps only the `ErrBadRequest` sentinel to 400,
so any other error value — a raw decoding error in particular — is
reported as a 500-equivalent failure. -/
theorem decode_error_surfaced (api : API) (ctx : Ctx) (m p : String) (input : RawMessage)
    (e : Endpoint) (pv : PathVars) (ei : EndpointInput) (f : HandlerFunc)
    (takesContext : Bool) (err : GoError)
    (hMatch : api.MatchEndpoint m p = some (e, pv))
    (hHooks : runHooks e.PreRequestHooks ⟨m, p, SetContextPathVars ctx pv, input⟩ =
      Outcome.ok (Except.ok ei))
    (hHandler : e.Handler = Handler.func f)
    (hLen : f.params.length ≤ 2)
    (hScan : scanParams f.params false false = some (takesContext, true))
    (hDecode : f.decode ei.Input = Outcome.ok (Except.error err)) :
    api.Call ctx m p input = (IVal.vnil, some err) ∧
    (err ≠ GoError.errNotFound → err ≠ GoError.errBadRequest →
      httpStatusForError err = 500) := by
  constructor
  · rw [call_after_hooks api ctx m p input e pv ei hMatch hHooks]
    simp only [invokeHandler, hHandler]
    rw [if_neg (by omega)]
    simp only [hScan, buildAndRun, hDecode, if_true]
    rfl
  · intro h1 h2
    cases err with
    | errNotFound => exact absurd rfl h1
    | errBadRequest => exact absurd rfl h2
    | errInternal => rfl
    | apiError c t => rfl
    | custom msg => rfl

theorem decode_error_surfaced_witness :
    c3Api.Call [] "GET" "/test" badBody = (IVal.vnil, some unmarshalErr) ∧
    httpStatusForError unmarshalErr = 500 :=
  have h := decode_error_surfaced c3Api [] "GET" "/test" badBody c3Endpoint []
    ⟨"GET", "/test", SetContextPathVars [] [], badBody⟩
    { params := [ParamKind.customParam]
      decode := fallibleDecode
      run := fun _ cv => Outcome.ok [IVal.vdata (cv.getD ""), IVal.vnil] }
    false unmarshalErr rfl rfl rfl (by decide) rfl rfl
  ⟨h.1, h.2 (by decide) (by decide)⟩

/-- C4: for every registry and every (method, path), `API.MatchEndpoint`
returns the first endpoint, in registration order, whose path matcher
reports a match, together with that endpoint's bound path variables: the
returned endpoint sits at an index all of whose predecessors fail to
match, so no later-registered matching endpoint is ever returned when an
earlier one matches. -/
theorem MatchEndpoint_first_match (api : API) (m p : String) (e : Endpoint) (pv : PathVars)
    (h : api.MatchEndpoint m p = some (e, pv)) :
    ∃ i, ∃ hi : i < api.Endpoints.length,
      api.Endpoints.get ⟨i, hi⟩ = e ∧ e.pathMatcher.Match m p = (pv, true) ∧
      ∀ j, ∀ hj : j < api.Endpoints.length, j < i →
        ((api.Endpoints.get ⟨j, hj⟩).pathMatcher.Match m p).2 = false :=
  matchEndpointLoop_first m p api.Endpoints e pv h

theorem MatchEndpoint_first_match_witness :
    (c4Api.MatchEndpoint "GET" "/dup" = some (c4e1, []) ∧
      (c4e2.pathMatcher.Match "GET" "/dup").2 = true) ∧
    (∃ i, ∃ hi : i < c4Api.Endpoints.length,
      c4Api.Endpoints.get ⟨i, hi⟩ = c4e1 ∧
      c4e1.pathMatcher.Match "GET" "/dup" = ([], true) ∧
      ∀ j, ∀ hj : j < c4Api.Endpoints.length, j < i →
        ((c4Api.Endpoints.get ⟨j, hj⟩).pathMatcher.Match "GET" "/dup").2 = false) :=
  ⟨⟨rfl, rfl⟩, MatchEndpoint_first_match c4Api "GET" "/dup" c4e1 [] rfl⟩

/-- C5: for every call that reaches handler introspection (the request
matched and the middleware chain completed), `API.Call` returns
`(nil, ErrInternal)` — it is total, never crashing — whenever the handler
is not a callable value, declares more than two parameters, or declares a
second parameter of an already-seen admissible kind (a second context-kind
or a second custom-kind parameter). -/
theorem invalid_handler_shape_internal (api : API) (ctx : Ctx) (m p : String)
    (input : RawMessage) (e : Endpoint) (pv : PathVars) (ei : EndpointInput)
    (hMatch : api.MatchEndpoint m p = some (e, pv))
    (hHooks : runHooks e.PreRequestHooks ⟨m, p, SetContextPathVars ctx pv, input⟩ =
      Outcome.ok (Except.ok ei))
    (hBad : (∃ d, e.Handler = Handler.notFunc d) ∨
      (∃ f, e.Handler = Handler.func f ∧
        (2 < f.params.length ∨ 2 ≤ f.params.count ParamKind.ctxParam ∨
          2 ≤ f.params.count ParamKind.customParam))) :
    api.Call ctx m p input = (IVal.vnil, some GoError.errInternal) := by
  rw [call_after_hooks api ctx m p input e pv ei hMatch hHooks]
  rcases hBad with ⟨d, hH⟩ | ⟨f, hH, hbad⟩
  · simp [invokeHandler, hH, recoverInternal]
  · by_cases hlen : 2 < f.params.length
    · simp only [invokeHandler, hH]
      rw [if_pos (by omega)]
      rfl
    · simp only [invokeHandler, hH]
      rw [if_neg (by omega)]
      rcases hbad with hlen2 | hc | hc
      · omega
      · rw [scanParams_two_ctx f.params false hc]
        rfl
      · rw [scanParams_two_custom f.params false hc]
        rfl

theorem invalid_handler_shape_internal_witness :
    c5Api.MatchEndpoint "GET" "/test" = some (c5Endpoint, []) ∧
    c5Api.Call [] "GET" "/test" "" = (IVal.vnil, some GoError.errInternal) :=
  ⟨rfl,
   invalid_handler_shape_internal c5Api [] "GET" "/test" "" c5Endpoint []
     ⟨"GET", "/test", SetContextPathVars [] [], ""⟩ rfl rfl
     (Or.inr ⟨{ params := [ParamKind.customParam, ParamKind.customParam]
                decode := okDecode
                run := fun _ _ => Outcome.ok [IVal.vdata "OK", IVal.vnil] },
       rfl, Or.inr (Or.inr (by decide))⟩)⟩

/-- C6: the hooks of an endpoint's middleware chain run strictly in their
registration order before the handler; each hook receives the current
`EndpointInput` and its returned replacement is what later hooks and the
handler observe; and if any hook returns an error, `API.Call` returns
`(nil, that hook's error)` regardless of the remaining hooks and of the
handler, which is never invoked. -/
theorem middleware_order_and_abort :
    (∀ (hs1 hs2 : List Hook) (ei ei2 : EndpointInput),
      runHooks hs1 ei = Outcome.ok (Except.ok ei2) →
      runHooks (hs1 ++ hs2) ei = runHooks hs2 ei2) ∧
    (∀ (api : API) (ctx : Ctx) (m p : String) (input : RawMessage) (e : Endpoint)
      (pv : PathVars) (hs1 : List Hook) (hk : Hook) (hs2 : List Hook)
      (ei2 : EndpointInput) (mi : Option EndpointInput) (err : GoError),
      api.MatchEndpoint m p = some (e, pv) →
      e.PreRequestHooks = hs1 ++ hk :: hs2 →
      runHooks hs1 ⟨m, p, SetContextPathVars ctx pv, input⟩ = Outcome.ok (Except.ok ei2) →
      hk ei2 = Outcome.ok (mi, some err) →
      api.Call ctx m p input = (IVal.vnil, some err)) ∧
    (∀ (api : API) (ctx : Ctx) (m p : String) (input : RawMessage) (e : Endpoint)
      (pv : PathVars) (ei2 : EndpointInput),
      api.MatchEndpoint m p = some (e, pv) →
      runHooks e.PreRequestHooks ⟨m, p, SetContextPathVars ctx pv, input⟩ =
        Outcome.ok (Except.ok ei2) →
      api.Call ctx m p input = recoverInternal (invokeHandler e ei2.Ctx ei2.Input)) := by
  refine ⟨runHooks_append, ?_, ?_⟩
  · intro api ctx m p input e pv hs1 hk hs2 ei2 mi err hMatch hE hHs1 hAbort
    have hrun : runHooks (hs1 ++ hk :: hs2) ⟨m, p, SetContextPathVars ctx pv, input⟩ =
        Outcome.ok (Except.error err) := by
      rw [runHooks_append hs1 (hk :: hs2) _ ei2 hHs1]
      simp [runHooks, hAbort]
    simp only [API.Call, callBody, hMatch, hE, hrun, recoverInternal]
  · intro api ctx m p input e pv ei2 hMatch hHooks
    exact call_after_hooks api ctx m p input e pv ei2 hMatch hHooks

theorem middleware_order_and_abort_witness :
    c6Endpoint.PreRequestHooks = [] ++ abortHook :: [] ∧
    abortHook ⟨"GET", "/test", SetContextPathVars [] [], ""⟩ =
      Outcome.ok (none, some (GoError.custom "ERROR")) ∧
    c6Api.Call [] "GET" "/test" "" = (IVal.vnil, some (GoError.custom "ERROR")) :=
  ⟨rfl, rfl,
   middleware_order_and_abort.2.1 c6Api [] "GET" "/test" "" c6Endpoint [] [] abortHook []
     ⟨"GET", "/test", SetContextPathVars [] [], ""⟩ none (GoError.custom "ERROR")
     rfl rfl rfl rfl⟩

/-- C7: for every registry and every (method, path) pair that no registered
endpoint matches, `API.Call` returns `(nil, ErrNotFound)` immediately —
the result is this constant whatever middleware and handlers the
endpoints carry, so none of them runs. -/
theorem call_not_found (api : API) (ctx : Ctx) (m p : String) (input : RawMessage)
    (h : ∀ e ∈ api.Endpoints, (e.pathMatcher.Match m p).2 = false) :
    api.Call ctx m p input = (IVal.vnil, some GoError.errNotFound) := by
  have hm : api.MatchEndpoint m p = none := matchEndpointLoop_none m p api.Endpoints h
  simp [API.Call, callBody, hm, recoverInternal]

theorem call_not_found_witness :
    c2Api.Call [] "POST" "/none" "" = (IVal.vnil, some GoError.errNotFound) :=
  call_not_found c2Api [] "POST" "/none" ""
    (by intro e he; simp only [c2Api, List.mem_singleton] at he; subst he; rfl)

/-- C8: for every registry and path, `API.GetMethodsForPath` returns the
method token of every endpoint whose pattern shape matches the path (its
`MatchPath`), in registration order and without deduplication — it equals
the registration-ordered filter of the endpoint list mapped to method
tokens; registering the same method and path twice yields that method
twice, and `GET/test` + `PUT/test` yield exactly `[GET, PUT]`.  (The
embedding is a pure function of the registry and path, so repeated calls
are identical by definition.) -/
theorem getMethodsForPath_characterization :
    (∀ (api : API) (path : String),
      api.GetMethodsForPath path =
        (api.Endpoints.filter (fun e => e.pathMatcher.MatchPath path)).map
          (fun e => e.pathMatcher.Method)) ∧
    c8Api.GetMethodsForPath "/test" = ["GET", "PUT"] ∧
    c8DupApi.GetMethodsForPath "/test" = ["GET", "GET"] := by
  refine ⟨?_, rfl, rfl⟩
  intro api path
  simpa using getMethodsLoop_spec path api.Endpoints []

/-- C9: for every context and path-variable binding, `ContextPathVars`
after `SetContextPathVars` returns exactly the new binding (the most
recently derived binding wins, whatever the context already carried);
deriving a child under a different key leaves the lookup unchanged; and on
a context that never received a path-variable binding, `ContextPathVars`
returns the empty mapping rather than failing. -/
theorem context_pathVars_laws (ctx : Ctx) (pv : PathVars) (req : Nat) (ctx2 : Ctx)
    (h : ∀ kv ∈ ctx2, kv.1 ≠ CtxKey.pathVarsKey) :
    ContextPathVars (SetContextPathVars ctx pv) = pv ∧
    ContextPathVars (SetContextLambdaRequest ctx req) = ContextPathVars ctx ∧
    ContextPathVars ctx2 = [] := by
  refine ⟨?_, ?_, ?_⟩
  · simp [ContextPathVars, SetContextPathVars, ctxValue]
  · simp [ContextPathVars, SetContextLambdaRequest, ctxValue]
  · simp [ContextPathVars, ctxValue_none_of_no_key ctx2 h]

theorem context_pathVars_laws_witness :
    ContextPathVars
      (SetContextPathVars [(CtxKey.pathVarsKey, CtxVal.pathVarsVal [("old", "1")])]
        [("x", "y")]) = [("x", "y")] ∧
    ContextPathVars
      (SetContextLambdaRequest [(CtxKey.pathVarsKey, CtxVal.pathVarsVal [("old", "1")])] 7) =
      ContextPathVars [(CtxKey.pathVarsKey, CtxVal.pathVarsVal [("old", "1")])] ∧
    ContextPathVars [(CtxKey.lambdaRequestKey, CtxVal.lambdaRequestVal 3)] = [] :=
  context_pathVars_laws [(CtxKey.pathVarsKey, CtxVal.pathVarsVal [("old", "1")])]
    [("x", "y")] 7 [(CtxKey.lambdaRequestKey, CtxVal.lambdaRequestVal 3)] (by decide)

/-- C10: endpoint selection happens exactly once, before the middleware
chain: whenever the chain completes with a (possibly rewritten) final
input, the call's result is the recovery boundary around the invocation of
the originally matched endpoint's handler on the final context and body —
the registry is not consulted again, the bound path variables are those of
the original match, and the rewritten method and path do not enter the
invocation at all. -/
theorem endpoint_selection_once (api : API) (ctx : Ctx) (m p : String) (input : RawMessage)
    (e : Endpoint) (pv : PathVars) (ei2 : EndpointInput)
    (hMatch : api.MatchEndpoint m p = some (e, pv))
    (hHooks : runHooks e.PreRequestHooks ⟨m, p, SetContextPathVars ctx pv, input⟩ =
      Outcome.ok (Except.ok ei2)) :
    api.Call ctx m p input = recoverInternal (invokeHandler e ei2.Ctx ei2.Input) :=
  call_after_hooks api ctx m p input e pv ei2 hMatch hHooks

theorem endpoint_selection_once_witness :
    c10Api.MatchEndpoint "GET" "/a" = some (c10e1, []) ∧
    (c10e2.pathMatcher.Match "GET" "/b").2 = true ∧
    c10Api.Call [] "GET" "/a" "" = (IVal.vdata "first", none) ∧
    c10Api.Call [] "GET" "/a" "" =
      recoverInternal (invokeHandler c10e1
        (SetContextPathVars [] []) "") :=
  ⟨rfl, rfl, rfl,
   endpoint_selection_once c10Api [] "GET" "/a" "" c10e1 []
     ⟨"GET", "/b", SetContextPathVars [] [], ""⟩ rfl rfl⟩

end Dispatch
